import Mathlib

/-!
A shallow embedding of the nano-retry library core (`retry.ts`): the backoff
calculator `calculateDelay`, the cancellable `sleep`, the per-attempt
`withTimeout` race, option validation, the retry loop `retry`, and the
`retryable` wrapper.

Modelling conventions:
* JS numbers are rationals (`ℚ`); `Math.round` is `jsRound x = ⌊x + 1/2⌋`
  (JS rounds half toward positive infinity).
* Time is logical: the call starts at time 0 (so `Date.now() - startTime`
  is the current model time); the operation and the callbacks report how
  long they take to settle, and awaiting them advances the clock by that
  duration.  All other loop logic is instantaneous, reflecting that the JS
  loop body runs synchronously between awaits.
* The abort signal is the time `abortAt` at which it becomes signaled
  (`none` = never); `signal.aborted` polled at time `t` is `abortAt ≤ t`.
  In a race, an abort firing at the same instant as another timer event is
  delivered to the abort listener first (the listener wins ties); in the
  `withTimeout` race the operation settling exactly at the timeout instant
  beats the timeout timer.
* `Math.random()` is an oracle `rand : ℕ → ℚ` indexed by the attempt
  number (the loop calls `calculateDelay` at most once per attempt).
* Thrown JS values are `RetryError ε`: `user e` is any caller error that is
  not an instance of the library's `AbortError`/`TimeoutError` classes;
  the three `TimeoutError` throw sites use distinct messages, so they are
  modelled as distinct constructors.
-/

namespace NanoRetry

/-- Which validation clause of `retry` rejected the options; each fault
corresponds to one `TypeError` message in the source. -/
inductive ConfigFault where
  | retriesNotNat
  | minTimeoutNonpos
  | maxTimeoutNonpos
  | factorNonpos
  | attemptTimeoutNonpos
  | totalTimeoutNonpos
deriving DecidableEq, Repr

/-- Failure kinds: `user e` is an arbitrary caller-thrown value (not an
`AbortError`/`TimeoutError` instance), `abortError` is `AbortError`,
`timeoutAttempt` is `TimeoutError("Attempt timed out after …ms")`,
`timeoutTotalExceeded` is `TimeoutError("Total timeout of …ms exceeded")`,
`timeoutTotalWouldExceed` is `TimeoutError("Total timeout of …ms would be
exceeded")`, and `configError` is the `TypeError` thrown by validation. -/
inductive RetryError (ε : Type) where
  | user : ε → RetryError ε
  | abortError : RetryError ε
  | timeoutAttempt : RetryError ε
  | timeoutTotalExceeded : RetryError ε
  | timeoutTotalWouldExceed : RetryError ε
  | configError : ConfigFault → RetryError ε
deriving DecidableEq, Repr

/-- The `RetryContext` record passed to `retryIf` and `onRetry`. -/
structure RetryContext where
  attempt : Nat
  retriesLeft : Nat
  elapsed : ℚ
  nextDelay : ℤ
deriving DecidableEq, Repr

/-- The numeric `RetryOptions` fields, after the destructuring defaults of
`retry` have been applied (the structure defaults are the `DEFAULTS` of the
source).  `retries` is kept as a raw JS number so that non-integer values
reach validation.  The capability-valued options (`signal`, `retryIf`,
`onRetry`) live in `RetryEnv` together with the operation. -/
structure RetryOptions where
  retries : ℚ := 3
  minTimeout : ℚ := 1000
  maxTimeout : ℚ := 30000
  factor : ℚ := 2
  jitter : Bool := true
  attemptTimeout : Option ℚ := none
  totalTimeout : Option ℚ := none
deriving DecidableEq, Repr

/-- The semantic environment of one `retry` call: the operation (duration to
settle and outcome, as a function of the 1-based attempt number it is
passed), the abort signal (`abortAt` = instant it becomes signaled), the
`Math.random` oracle, and the optional `retryIf` / `onRetry` callbacks
(each returns its awaited duration and its outcome; an `Except.error` is
the callback itself throwing). -/
structure RetryEnv (ε α : Type) where
  op : Nat → ℚ × Except (RetryError ε) α
  abortAt : Option ℚ := none
  rand : Nat → ℚ := fun _ => 0
  retryIf : Option (RetryError ε → RetryContext → ℚ × Except (RetryError ε) Bool) := none
  onRetry : Option (RetryError ε → RetryContext → ℚ × Except (RetryError ε) Unit) := none

/-- Decidable equality for `Except` outcomes. -/
instance {σ β : Type} [DecidableEq σ] [DecidableEq β] : DecidableEq (Except σ β) :=
  fun a b =>
    match a, b with
    | Except.ok x, Except.ok y =>
        if h : x = y then isTrue (by rw [h]) else isFalse (by simp [h])
    | Except.error x, Except.error y =>
        if h : x = y then isTrue (by rw [h]) else isFalse (by simp [h])
    | Except.ok _, Except.error _ => isFalse (by simp)
    | Except.error _, Except.ok _ => isFalse (by simp)

/-- Observable accounting of one run: how often the operation was invoked,
which errors were passed to `retryIf`, how often `onRetry` ran, and how many
inter-attempt delays completed in full. -/
structure RunStats (ε : Type) where
  invocations : Nat
  retryIfErrs : List (RetryError ε)
  onRetryCalls : Nat
  sleeps : Nat
deriving DecidableEq, Repr

/-- Outcome of one `retry` call: the settled value or rejection, the
accounting, and the instant the call settled. -/
structure RunResult (ε α : Type) where
  result : Except (RetryError ε) α
  stats : RunStats ε
  endTime : ℚ
deriving DecidableEq, Repr

/-- JS `Math.round`: round half toward positive infinity. -/
def jsRound (x : ℚ) : ℤ := ⌊x + 1 / 2⌋

/-- Source `calculateDelay`: exponential backoff
`minTimeout * factor ^ (attempt - 1)`, capped at `maxTimeout`, then, with
jitter on, `delay - jitterRange + Math.random() * jitterRange * 2` for
`jitterRange = delay * 0.25`, and finally `Math.round`. -/
def calculateDelay (attempt : Nat) (minTimeout maxTimeout factor : ℚ)
    (jitter : Bool) (rand : ℚ) : ℤ :=
  let delay := minTimeout * factor ^ (attempt - 1)
  let delay := min delay maxTimeout
  let delay :=
    if jitter then
      let jitterRange := delay * (1 / 4)
      delay - jitterRange + rand * jitterRange * 2
    else delay
  jsRound delay

/-- The poll `signal?.aborted` at instant `now`. -/
def aborted (abortAt : Option ℚ) (now : ℚ) : Bool :=
  match abortAt with
  | some a => decide (a ≤ now)
  | none => false

/-- The loop-head check `elapsed >= totalTimeout` (false when no
`totalTimeout` is configured). -/
def totalExpired (totalTimeout : Option ℚ) (elapsed : ℚ) : Bool :=
  match totalTimeout with
  | some t => decide (t ≤ elapsed)
  | none => false

/-- The post-callback check `totalTimeout - elapsed < nextDelay` (false when
no `totalTimeout` is configured). -/
def totalWouldExceed (totalTimeout : Option ℚ) (elapsed : ℚ) (nextDelay : ℤ) : Bool :=
  match totalTimeout with
  | some t => decide (t - elapsed < (nextDelay : ℚ))
  | none => false

/-- Source `sleep(ms, signal)` started at `now`: rejects immediately when the
signal is already aborted, rejects at `abortAt` when the signal fires during
the wait (the abort listener wins a tie with the timer), and otherwise
resolves at `now + ms`.  Returns the settlement instant and whether it
rejected with `AbortError`. -/
def sleep (now : ℚ) (ms : ℤ) (abortAt : Option ℚ) : ℚ × Bool :=
  if aborted abortAt now then (now, true)
  else
    match abortAt with
    | some a => if a ≤ now + (ms : ℚ) then (a, true) else (now + (ms : ℚ), false)
    | none => (now + (ms : ℚ), false)

/-- Source `withTimeout(fn, timeoutMs, signal)` started at `now`, where the
wrapped operation settles after `dur` with outcome `res`: rejects
`AbortError` if the signal is aborted at entry or fires before the race is
otherwise settled (listener wins ties); otherwise the operation settling
within `timeoutMs` delivers its own outcome, and a slower operation loses to
the `TimeoutError("Attempt timed out …")` timer. -/
def withTimeout (now dur : ℚ) (res : Except (RetryError ε) α)
    (timeoutMs : ℚ) (abortAt : Option ℚ) : ℚ × Except (RetryError ε) α :=
  if aborted abortAt now then (now, Except.error RetryError.abortError)
  else
    let base : ℚ × Except (RetryError ε) α :=
      if dur ≤ timeoutMs then (now + dur, res)
      else (now + timeoutMs, Except.error RetryError.timeoutAttempt)
    match abortAt with
    | some a => if a ≤ base.1 then (a, Except.error RetryError.abortError) else base
    | none => base

/-- The test `error instanceof AbortError`: only the library's own
`AbortError` class satisfies it. -/
def isAbortError : RetryError ε → Bool
  | RetryError.abortError => true
  | _ => false

/-- One execution of the operation from the loop body: under an
`attemptTimeout` the call is raced through `withTimeout`; otherwise the
bare `await fn(attempt)` settles after the operation's own duration with
its own outcome (no race, so an abort firing meanwhile is not observed
here). -/
def attemptExec (env : RetryEnv ε α) (o : RetryOptions) (attempt : Nat)
    (now : ℚ) : ℚ × Except (RetryError ε) α :=
  let r := env.op attempt
  match o.attemptTimeout with
  | some tmo => withTimeout now r.1 r.2 tmo env.abortAt
  | none => (now + r.1, r.2)

/-- The check `x !== undefined && x <= 0` applied to an optional option. -/
def optNonpos (x : Option ℚ) : Bool :=
  match x with
  | some v => decide (v ≤ 0)
  | none => false

/-- The validation block of `retry`, in source order; `none` means the
options pass.  `Number.isInteger` on a rational is `den = 1`. -/
def validateOptions (o : RetryOptions) : Option ConfigFault :=
  if o.retries < 0 ∨ o.retries.den ≠ 1 then some ConfigFault.retriesNotNat
  else if o.minTimeout ≤ 0 then some ConfigFault.minTimeoutNonpos
  else if o.maxTimeout ≤ 0 then some ConfigFault.maxTimeoutNonpos
  else if o.factor ≤ 0 then some ConfigFault.factorNonpos
  else if optNonpos o.attemptTimeout then some ConfigFault.attemptTimeoutNonpos
  else if optNonpos o.totalTimeout then some ConfigFault.totalTimeoutNonpos
  else none

/-- Result of one iteration of the `for` loop: `done` settles the whole call
(value or rejection, this iteration's accounting, settlement instant);
`next` falls through to the next iteration carrying the error just handled
(the loop's `lastError`), this iteration's accounting, and the instant the
inter-attempt delay completed. -/
inductive StepOut (ε α : Type) where
  | done : Except (RetryError ε) α → RunStats ε → ℚ → StepOut ε α
  | next : RetryError ε → RunStats ε → ℚ → StepOut ε α
deriving DecidableEq

/-- Accounting of a step, regardless of how it ended. -/
def StepOut.stats : StepOut ε α → RunStats ε
  | StepOut.done _ s _ => s
  | StepOut.next _ s _ => s

/-- Settlement instant of a step. -/
def StepOut.time : StepOut ε α → ℚ
  | StepOut.done _ _ t => t
  | StepOut.next _ _ t => t

/-- Tail of the loop body after `retryIf` has passed (source lines: the
`onRetry` call, the would-exceed check, and the `sleep`): `stats` is the
accounting already produced by this iteration. -/
def afterCallbacks (env : RetryEnv ε α) (o : RetryOptions) (e : RetryError ε)
    (nextDelay : ℤ) (now : ℚ) (stats : RunStats ε) : StepOut ε α :=
  if totalWouldExceed o.totalTimeout now nextDelay then
    StepOut.done (Except.error RetryError.timeoutTotalWouldExceed) stats now
  else
    match sleep now nextDelay env.abortAt with
    | (t, true) => StepOut.done (Except.error RetryError.abortError) stats t
    | (t, false) =>
        StepOut.next e
          ⟨stats.invocations, stats.retryIfErrs, stats.onRetryCalls, stats.sleeps + 1⟩ t

/-- The `onRetry` call site: a configured callback is awaited; its own throw
propagates and settles the whole call. -/
def afterPred (env : RetryEnv ε α) (o : RetryOptions) (e : RetryError ε)
    (ctx : RetryContext) (nextDelay : ℤ) (now : ℚ) (stats : RunStats ε) : StepOut ε α :=
  match env.onRetry with
  | some cb =>
      match cb e ctx with
      | (d, Except.error ce) =>
          StepOut.done (Except.error ce)
            ⟨stats.invocations, stats.retryIfErrs, stats.onRetryCalls + 1, stats.sleeps⟩
            (now + d)
      | (d, Except.ok _) =>
          afterCallbacks env o e nextDelay (now + d)
            ⟨stats.invocations, stats.retryIfErrs, stats.onRetryCalls + 1, stats.sleeps⟩
  | none => afterCallbacks env o e nextDelay now stats

/-- One iteration of the `for` loop of `retry`, at attempt number `attempt`
and instant `now`, with `retriesN` the validated `retries` count.  Follows
the source order: total-timeout check, abort check, attempt execution
(optionally raced via `withTimeout`), success return, `AbortError` rethrow,
exhaustion check, `calculateDelay`, context build, `retryIf`, `onRetry`,
would-exceed check, `sleep`. -/
def retryStep (env : RetryEnv ε α) (o : RetryOptions) (retriesN : Nat)
    (attempt : Nat) (now : ℚ) : StepOut ε α :=
  if totalExpired o.totalTimeout now then
    StepOut.done (Except.error RetryError.timeoutTotalExceeded) ⟨0, [], 0, 0⟩ now
  else if aborted env.abortAt now then
    StepOut.done (Except.error RetryError.abortError) ⟨0, [], 0, 0⟩ now
  else
    match attemptExec env o attempt now with
    | (t1, Except.ok v) => StepOut.done (Except.ok v) ⟨1, [], 0, 0⟩ t1
    | (t1, Except.error e) =>
      if isAbortError e then StepOut.done (Except.error e) ⟨1, [], 0, 0⟩ t1
      else
        let retriesLeft := retriesN + 1 - attempt
        if retriesLeft = 0 then StepOut.done (Except.error e) ⟨1, [], 0, 0⟩ t1
        else
          let nextDelay :=
            calculateDelay attempt o.minTimeout o.maxTimeout o.factor o.jitter
              (env.rand attempt)
          let ctx : RetryContext := ⟨attempt, retriesLeft, t1, nextDelay⟩
          match env.retryIf with
          | some p =>
              match p e ctx with
              | (d, Except.error ce) =>
                  StepOut.done (Except.error ce) ⟨1, [e], 0, 0⟩ (t1 + d)
              | (d, Except.ok b) =>
                  if b then afterPred env o e ctx nextDelay (t1 + d) ⟨1, [e], 0, 0⟩
                  else StepOut.done (Except.error e) ⟨1, [e], 0, 0⟩ (t1 + d)
          | none => afterPred env o e ctx nextDelay t1 ⟨1, [], 0, 0⟩

/-- The bounded `for` loop: `fuel` is the number of iterations the bound
still permits (`retries + 1 - attempt + 1` at entry to each iteration), so
the loop exits when `fuel = 0`; the source then runs the defensive
`throw lastError` (unreachable from `retry`: the last permitted attempt
always settles the call). -/
def retryGo (env : RetryEnv ε α) (o : RetryOptions) (retriesN : Nat) :
    Nat → Nat → ℚ → Option (RetryError ε) → RunResult ε α
  | 0, _, now, lastError =>
      ⟨Except.error (lastError.getD RetryError.abortError), ⟨0, [], 0, 0⟩, now⟩
  | fuel + 1, attempt, now, _ =>
      match retryStep env o retriesN attempt now with
      | StepOut.done r s t => ⟨r, s, t⟩
      | StepOut.next e s t =>
          let rest := retryGo env o retriesN fuel (attempt + 1) t (some e)
          ⟨rest.result,
            ⟨s.invocations + rest.stats.invocations,
              s.retryIfErrs ++ rest.stats.retryIfErrs,
              s.onRetryCalls + rest.stats.onRetryCalls,
              s.sleeps + rest.stats.sleeps⟩,
            rest.endTime⟩

/-- The validated `retries` as a natural number. -/
def retriesNat (o : RetryOptions) : Nat := o.retries.num.toNat

/-- Source `retry(fn, options)`: validate the options, reject `AbortError`
if the signal is already aborted, then run the loop from attempt 1 at time
0 with no `lastError`. -/
def retry (env : RetryEnv ε α) (o : RetryOptions) : RunResult ε α :=
  match validateOptions o with
  | some fault =>
      ⟨Except.error (RetryError.configError fault), ⟨0, [], 0, 0⟩, 0⟩
  | none =>
      if aborted env.abortAt 0 then
        ⟨Except.error RetryError.abortError, ⟨0, [], 0, 0⟩, 0⟩
      else retryGo env o (retriesNat o) (retriesNat o + 1) 1 0 none

/-- Source `retryable(fn, options)`: returns the callable that forwards its
call-time arguments to `fn` and delegates to `retry` with the fixed options;
the inner arrow `() => fn(...args)` ignores the attempt number `retry`
passes it.  `caps` carries the call's capabilities (signal, callbacks,
randomness); its `op` field is replaced by the bound operation. -/
def retryable {τ : Type} (fn : τ → ℚ × Except (RetryError ε) α)
    (o : RetryOptions) (caps : RetryEnv ε α) : τ → RunResult ε α :=
  fun args => retry { caps with op := fun _ => fn args } o

/-! ### Basic lemmas about the embedded definitions -/

theorem optNonpos_eq_false {x : Option ℚ} :
    optNonpos x = false ↔ ∀ v ∈ x, 0 < v := by
  cases x <;> simp [optNonpos]

theorem aborted_eq_false {a : Option ℚ} {now : ℚ} :
    aborted a now = false ↔ ∀ x ∈ a, now < x := by
  cases a <;> simp [aborted]

theorem totalExpired_none (now : ℚ) : totalExpired none now = false := rfl

/-- Options that pass validation satisfy every clause. -/
theorem validateOptions_none_facts {o : RetryOptions} (h : validateOptions o = none) :
    0 ≤ o.retries ∧ o.retries.den = 1 ∧ 0 < o.minTimeout ∧ 0 < o.maxTimeout ∧
      0 < o.factor ∧ (∀ x ∈ o.attemptTimeout, 0 < x) ∧
      (∀ x ∈ o.totalTimeout, 0 < x) := by
  unfold validateOptions at h
  split_ifs at h with h1 h2 h3 h4 h5 h6
  all_goals try simp at h
  exact ⟨not_lt.mp fun hc => h1 (Or.inl hc), not_not.mp fun hc => h1 (Or.inr hc),
    not_le.mp h2, not_le.mp h3, not_le.mp h4,
    optNonpos_eq_false.mp (Bool.eq_false_iff.mpr h5),
    optNonpos_eq_false.mp (Bool.eq_false_iff.mpr h6)⟩

/-- Fields of this iteration's accounting that `afterCallbacks` leaves
untouched (it can only bump `sleeps`, by at most one). -/
theorem afterCallbacks_stats (env : RetryEnv ε α) (o : RetryOptions)
    (e : RetryError ε) (nd : ℤ) (now : ℚ) (s : RunStats ε) :
    (afterCallbacks env o e nd now s).stats.invocations = s.invocations ∧
      (afterCallbacks env o e nd now s).stats.retryIfErrs = s.retryIfErrs ∧
      (afterCallbacks env o e nd now s).stats.onRetryCalls = s.onRetryCalls ∧
      (afterCallbacks env o e nd now s).stats.sleeps ≤ s.sleeps + 1 := by
  unfold afterCallbacks
  split
  · simp [StepOut.stats]
  · split <;> simp [StepOut.stats]

/-- Fields of this iteration's accounting that `afterPred` leaves untouched
(it can only bump `onRetryCalls` by at most one, and `sleeps` via
`afterCallbacks`). -/
theorem afterPred_stats (env : RetryEnv ε α) (o : RetryOptions)
    (e : RetryError ε) (ctx : RetryContext) (nd : ℤ) (now : ℚ) (s : RunStats ε) :
    (afterPred env o e ctx nd now s).stats.invocations = s.invocations ∧
      (afterPred env o e ctx nd now s).stats.retryIfErrs = s.retryIfErrs ∧
      (afterPred env o e ctx nd now s).stats.onRetryCalls ≤ s.onRetryCalls + 1 := by
  rcases honr : env.onRetry with _ | cb
  · simp only [afterPred, honr]
    obtain ⟨a, b, c, _⟩ := afterCallbacks_stats env o e nd now s
    exact ⟨a, b, le_of_eq c |>.trans (Nat.le_succ _)⟩
  · rcases hr : cb e ctx with ⟨d, out⟩
    rcases out with ce | u
    · simp [afterPred, honr, hr, StepOut.stats]
    · simp only [afterPred, honr, hr]
      obtain ⟨a, b, c, _⟩ := afterCallbacks_stats env o e nd (now + d)
        ⟨s.invocations, s.retryIfErrs, s.onRetryCalls + 1, s.sleeps⟩
      exact ⟨a, b, le_of_eq c⟩

/-- Simp form: `afterPred` does not change this iteration's invocation
count. -/
theorem afterPred_invocations (env : RetryEnv ε α) (o : RetryOptions)
    (e : RetryError ε) (ctx : RetryContext) (nd : ℤ) (now : ℚ) (s : RunStats ε) :
    (afterPred env o e ctx nd now s).stats.invocations = s.invocations :=
  (afterPred_stats env o e ctx nd now s).1

/-- Simp form: `afterPred` does not change the errors already passed to
`retryIf`. -/
theorem afterPred_retryIfErrs (env : RetryEnv ε α) (o : RetryOptions)
    (e : RetryError ε) (ctx : RetryContext) (nd : ℤ) (now : ℚ) (s : RunStats ε) :
    (afterPred env o e ctx nd now s).stats.retryIfErrs = s.retryIfErrs :=
  (afterPred_stats env o e ctx nd now s).2.1

/-- Simp form: `afterPred` runs `onRetry` at most once. -/
theorem afterPred_onRetryCalls_le (env : RetryEnv ε α) (o : RetryOptions)
    (e : RetryError ε) (ctx : RetryContext) (nd : ℤ) (now : ℚ) (s : RunStats ε) :
    (afterPred env o e ctx nd now s).stats.onRetryCalls ≤ s.onRetryCalls + 1 :=
  (afterPred_stats env o e ctx nd now s).2.2

/-- Master per-iteration accounting: at most one invocation, at most one
`onRetry` call, and anything passed to `retryIf` is a non-abort error that
this iteration's attempt execution itself produced. -/
theorem retryStep_master (env : RetryEnv ε α) (o : RetryOptions) (rn attempt : Nat)
    (now : ℚ) :
    (retryStep env o rn attempt now).stats.invocations ≤ 1 ∧
      (retryStep env o rn attempt now).stats.onRetryCalls ≤ 1 ∧
      ∀ x ∈ (retryStep env o rn attempt now).stats.retryIfErrs,
        isAbortError x = false ∧
          ∃ t1, attemptExec env o attempt now = (t1, Except.error x) := by
  unfold retryStep
  rcases hAE : attemptExec env o attempt now with ⟨t1, res⟩
  split
  · simp [StepOut.stats]
  split
  · simp [StepOut.stats]
  rcases res with e | v
  · dsimp only
    split
    · simp [StepOut.stats]
    next he =>
    have he' : isAbortError e = false := Bool.eq_false_iff.mpr he
    split
    · simp [StepOut.stats]
    rcases hRI : env.retryIf with _ | p
    · dsimp only
      refine ⟨by simp [afterPred_invocations], ?_, ?_⟩
      · exact (afterPred_onRetryCalls_le env o e _ _ _ _).trans (by simp)
      · simp [afterPred_retryIfErrs]
    · dsimp only
      split
      next d ce hP =>
        refine ⟨by simp [StepOut.stats], by simp [StepOut.stats], ?_⟩
        simp only [StepOut.stats, List.mem_singleton]
        rintro x rfl
        exact ⟨he', t1, rfl⟩
      next d b hP =>
        rcases b
        · simp only [Bool.false_eq_true, if_false]
          refine ⟨by simp [StepOut.stats], by simp [StepOut.stats], ?_⟩
          simp only [StepOut.stats, List.mem_singleton]
          rintro x rfl
          exact ⟨he', t1, rfl⟩
        · simp only [if_true]
          refine ⟨by simp [afterPred_invocations], ?_, ?_⟩
          · exact (afterPred_onRetryCalls_le env o e _ _ _ _).trans (by simp)
          · simp only [afterPred_retryIfErrs, List.mem_singleton]
            rintro x rfl
            exact ⟨he', t1, rfl⟩
  · simp [StepOut.stats]

/-- An iteration that is actually reached (the signal not yet signaled, the
total budget not yet exhausted) invokes the operation exactly once. -/
theorem retryStep_invoked (env : RetryEnv ε α) (o : RetryOptions) (rn attempt : Nat)
    (now : ℚ) (h1 : totalExpired o.totalTimeout now = false)
    (h2 : aborted env.abortAt now = false) :
    (retryStep env o rn attempt now).stats.invocations = 1 := by
  unfold retryStep
  rw [h1, h2]
  simp only [Bool.false_eq_true, if_false]
  rcases hAE : attemptExec env o attempt now with ⟨t1, res⟩
  rcases res with e | v
  · dsimp only
    split
    · simp [StepOut.stats]
    split
    · simp [StepOut.stats]
    rcases hRI : env.retryIf with _ | p
    · dsimp only
      simp [afterPred_invocations]
    · dsimp only
      split
      next d ce hP => simp [StepOut.stats]
      next d b hP =>
        rcases b
        · simp [StepOut.stats]
        · simp [afterPred_invocations]
  · simp [StepOut.stats]

/-- Whole-loop accounting: at most `fuel` invocations, and everything passed
to `retryIf` is a non-abort error produced by some attempt execution. -/
theorem retryGo_stats (env : RetryEnv ε α) (o : RetryOptions) (rn : Nat)
    (fuel : Nat) : ∀ (attempt : Nat) (now : ℚ) (lastErr : Option (RetryError ε)),
    (retryGo env o rn fuel attempt now lastErr).stats.invocations ≤ fuel ∧
      ∀ x ∈ (retryGo env o rn fuel attempt now lastErr).stats.retryIfErrs,
        isAbortError x = false ∧
          ∃ a t0 t1, attemptExec env o a t0 = (t1, Except.error x) := by
  induction fuel with
  | zero => intro attempt now lastErr; simp [retryGo]
  | succ f ih =>
      intro attempt now lastErr
      obtain ⟨m1, m2, m3⟩ := retryStep_master env o rn attempt now
      rcases hS : retryStep env o rn attempt now with ⟨r, s, t⟩ | ⟨e, s, t⟩ <;>
        rw [hS] at m1 m2 m3 <;> simp only [StepOut.stats] at m1 m2 m3
      · simp only [retryGo, hS]
        exact ⟨m1.trans (by omega),
          fun x hx => ⟨(m3 x hx).1, attempt, now, (m3 x hx).2⟩⟩
      · simp only [retryGo, hS]
        obtain ⟨i1, i2⟩ := ih (attempt + 1) t (some e)
        refine ⟨?_, ?_⟩
        · show s.invocations +
              (retryGo env o rn f (attempt + 1) t (some e)).stats.invocations ≤ f + 1
          omega
        intro x hx
        simp only [List.mem_append] at hx
        rcases hx with hx | hx
        · exact ⟨(m3 x hx).1, attempt, now, (m3 x hx).2⟩
        · exact i2 x hx

/-- Options that pass validation have a positive `totalTimeout` when one is
configured, so the whole-operation budget cannot already be exhausted at
call start. -/
theorem totalExpired_zero_of_valid {o : RetryOptions} (hv : validateOptions o = none) :
    totalExpired o.totalTimeout 0 = false := by
  obtain ⟨_, _, _, _, _, _, htt⟩ := validateOptions_none_facts hv
  cases ho : o.totalTimeout with
  | none => rfl
  | some t =>
      have h := htt t (by simp [ho])
      simp only [totalExpired, decide_eq_false_iff_not, not_le]
      exact h

/-- A loop entered with budget left and the signal unsignaled performs at
least one operation invocation. -/
theorem retryGo_invoked_lower (env : RetryEnv ε α) (o : RetryOptions) (rn : Nat)
    (fuel attempt : Nat) (now : ℚ) (lE : Option (RetryError ε))
    (h1 : totalExpired o.totalTimeout now = false)
    (h2 : aborted env.abortAt now = false) :
    1 ≤ (retryGo env o rn (fuel + 1) attempt now lE).stats.invocations := by
  have hstep := retryStep_invoked env o rn attempt now h1 h2
  rcases hS : retryStep env o rn attempt now with ⟨r, s, t⟩ | ⟨e, s, t⟩ <;>
    rw [hS] at hstep <;> simp only [StepOut.stats] at hstep <;>
    simp only [retryGo, hS]
  · exact le_of_eq hstep.symm
  · show 1 ≤ s.invocations +
        (retryGo env o rn fuel (attempt + 1) t (some e)).stats.invocations
    omega

/-! ### Claims -/

/-- C1 (counterexample): with the default — hence valid — options and a
cancellation token already signaled at call start, `retry` performs zero
operation invocations, refuting the claimed lower bound of one invocation
for every valid configuration. -/
theorem c1_counterexample :
    validateOptions ⟨3, 1000, 30000, 2, true, none, none⟩ = none ∧
      (retry (ε := Unit) (α := Unit)
          ⟨fun _ => (0, Except.ok ()), some 0, fun _ => 0, none, none⟩
          ⟨3, 1000, 30000, 2, true, none, none⟩).stats.invocations = 0 ∧
      (retry (ε := Unit) (α := Unit)
          ⟨fun _ => (0, Except.ok ()), some 0, fun _ => 0, none, none⟩
          ⟨3, 1000, 30000, 2, true, none, none⟩).result =
        Except.error RetryError.abortError := by
  refine ⟨by decide, by decide, by decide⟩

/-- C1 (amended): for every valid configuration the operation is invoked at
most `retries + 1` times, and at least once whenever the cancellation token
is not already signaled at call start (a pre-signaled token short-circuits
to `AbortError` with zero invocations). -/
theorem c1_invocation_bounds (env : RetryEnv ε α) (o : RetryOptions)
    (hv : validateOptions o = none) :
    (retry env o).stats.invocations ≤ retriesNat o + 1 ∧
      (aborted env.abortAt 0 = false → 1 ≤ (retry env o).stats.invocations) := by
  unfold retry
  rw [hv]
  dsimp only
  split
  next hab =>
    exact ⟨by simp, fun hf => absurd hab (by simp [hf])⟩
  next hab =>
    refine ⟨(retryGo_stats env o (retriesNat o) (retriesNat o + 1) 1 0 none).1, ?_⟩
    intro _
    exact retryGo_invoked_lower env o (retriesNat o) (retriesNat o) 1 0 none
      (totalExpired_zero_of_valid hv) (Bool.eq_false_iff.mpr hab)

/-- C1 (witness): the amended bounds at a concrete run — two failing
attempts then success under `retries = 2`. -/
theorem c1_witness :
    (retry (ε := Unit) (α := Nat)
          ⟨fun n => (0, if n ≤ 2 then Except.error (RetryError.user ()) else Except.ok 7),
            none, fun _ => 0, none, none⟩
          ⟨2, 1, 10, 2, false, none, none⟩).stats.invocations ≤
        retriesNat ⟨2, 1, 10, 2, false, none, none⟩ + 1 ∧
      1 ≤ (retry (ε := Unit) (α := Nat)
          ⟨fun n => (0, if n ≤ 2 then Except.error (RetryError.user ()) else Except.ok 7),
            none, fun _ => 0, none, none⟩
          ⟨2, 1, 10, 2, false, none, none⟩).stats.invocations := by
  have h := c1_invocation_bounds (ε := Unit) (α := Nat)
    ⟨fun n => (0, if n ≤ 2 then Except.error (RetryError.user ()) else Except.ok 7),
      none, fun _ => 0, none, none⟩
    ⟨2, 1, 10, 2, false, none, none⟩ (by decide)
  exact ⟨h.1, h.2 (by decide)⟩

/-- Modelled from the spec (§4.1) for comparison with `calculateDelay`:
`raw = baseDelay × growthFactor^(attemptNumber − 1)`;
`capped = min(raw, maxDelay)`. -/
def cappedDelay (attempt : Nat) (minT maxT g : ℚ) : ℚ :=
  min (minT * g ^ (attempt - 1)) maxT

/-- With jitter on, the source's `delay - jitterRange + rand * jitterRange
* 2` is `capped·3/4 + rand·(capped/2)`. -/
theorem calculateDelay_jitter (attempt : Nat) (minT maxT g rand : ℚ) :
    calculateDelay attempt minT maxT g true rand =
      jsRound (cappedDelay attempt minT maxT g * (3 / 4) +
        rand * (cappedDelay attempt minT maxT g * (1 / 2))) := by
  unfold calculateDelay cappedDelay
  simp only [if_true]
  exact congrArg jsRound (by ring)

/-- C3: for every attempt number `n ≥ 1` and positive base delay, ceiling
and growth factor, the backoff calculator returns
`round(min(base × g^(n−1), max))` with jitter disabled; with jitter enabled
it returns the rounding of `capped·3/4 + rand·capped/2`, which lies in
`[0.75·capped, 1.25·capped]` for `rand ∈ [0, 1)`, and every value of that
interval is attained by some such `rand`. -/
theorem c3_backoff_formula (attempt : Nat) (minT maxT g rand : ℚ)
    (_hatt : 1 ≤ attempt) (hmin : 0 < minT) (hmax : 0 < maxT) (hg : 0 < g)
    (h0 : 0 ≤ rand) (h1 : rand < 1) :
    calculateDelay attempt minT maxT g false rand =
        jsRound (cappedDelay attempt minT maxT g) ∧
      calculateDelay attempt minT maxT g true rand =
        jsRound (cappedDelay attempt minT maxT g * (3 / 4) +
          rand * (cappedDelay attempt minT maxT g * (1 / 2))) ∧
      cappedDelay attempt minT maxT g * (3 / 4) ≤
        cappedDelay attempt minT maxT g * (3 / 4) +
          rand * (cappedDelay attempt minT maxT g * (1 / 2)) ∧
      cappedDelay attempt minT maxT g * (3 / 4) +
          rand * (cappedDelay attempt minT maxT g * (1 / 2)) ≤
        cappedDelay attempt minT maxT g * (5 / 4) ∧
      ∀ v : ℚ, cappedDelay attempt minT maxT g * (3 / 4) ≤ v →
        v < cappedDelay attempt minT maxT g * (5 / 4) →
        ∃ r : ℚ, 0 ≤ r ∧ r < 1 ∧
          cappedDelay attempt minT maxT g * (3 / 4) +
            r * (cappedDelay attempt minT maxT g * (1 / 2)) = v := by
  have hc : 0 < cappedDelay attempt minT maxT g :=
    lt_min (mul_pos hmin (pow_pos hg _)) hmax
  refine ⟨rfl, ?_, ?_, ?_, ?_⟩
  · exact calculateDelay_jitter attempt minT maxT g rand
  · nlinarith [mul_nonneg h0 (le_of_lt hc)]
  · nlinarith [mul_lt_mul_of_pos_right h1 (by linarith : (0 : ℚ) < cappedDelay attempt minT maxT g * (1 / 2))]
  · intro v hlo hhi
    refine ⟨(v - cappedDelay attempt minT maxT g * (3 / 4)) /
      (cappedDelay attempt minT maxT g * (1 / 2)), ?_, ?_, ?_⟩
    · apply div_nonneg (by linarith) (by linarith)
    · rw [div_lt_one (by linarith)]
      linarith
    · field_simp
      ring

/-- C3 (witness): the formula at attempt 2, base 50, factor 2, ceiling
30000, `Math.random() = 1/2`: 100 with jitter off, and the jittered value
with `rand = 1/2` is again the rounded midpoint 100. -/
theorem c3_witness :
    calculateDelay 2 50 30000 2 false (1 / 2) = jsRound (cappedDelay 2 50 30000 2) ∧
      calculateDelay 2 50 30000 2 true (1 / 2) =
        jsRound (cappedDelay 2 50 30000 2 * (3 / 4) +
          (1 / 2) * (cappedDelay 2 50 30000 2 * (1 / 2))) ∧
      calculateDelay 2 50 30000 2 false (1 / 2) = 100 := by
  have h := c3_backoff_formula 2 50 30000 2 (1 / 2) (by norm_num) (by norm_num)
    (by norm_num) (by norm_num) (by norm_num) (by norm_num)
  exact ⟨h.1, h.2.1, by norm_num [calculateDelay, jsRound, Int.floor_eq_iff]⟩

/-- C9: calling the wrapper returned by `retryable fn o` with arguments
`args` behaves identically to `retry` of the bound operation
`fun _ => fn args` (the inner arrow ignores the attempt number it is
passed) under the same options and capabilities: the very same
`RunResult` — same success value, same error, same invocation count, with
`args` forwarded to `fn` on every attempt. -/
theorem c9_retryable_roundtrip {τ : Type} (fn : τ → ℚ × Except (RetryError ε) α)
    (o : RetryOptions) (caps : RetryEnv ε α) (args : τ) :
    retryable fn o caps args = retry { caps with op := fun _ => fn args } o := rfl

/-- C6: a configuration violating any constraint (negative or non-integer
`retries`; non-positive `minTimeout`, `maxTimeout`, `factor`, or a
configured non-positive `attemptTimeout` / `totalTimeout`) makes `retry`
fail with a configuration-error kind (`TypeError`) synchronously at call
start: zero operation invocations, zero callback invocations, zero delays,
settled at time 0 — so such an error is never retried. -/
theorem c6_invalid_config (env : RetryEnv ε α) (o : RetryOptions)
    (hbad : o.retries < 0 ∨ o.retries.den ≠ 1 ∨ o.minTimeout ≤ 0 ∨
      o.maxTimeout ≤ 0 ∨ o.factor ≤ 0 ∨
      (∃ x ∈ o.attemptTimeout, x ≤ 0) ∨ (∃ x ∈ o.totalTimeout, x ≤ 0)) :
    ∃ fault, retry env o =
      ⟨Except.error (RetryError.configError fault), ⟨0, [], 0, 0⟩, 0⟩ := by
  rcases hval : validateOptions o with _ | fault
  · exfalso
    obtain ⟨f1, f2, f3, f4, f5, f6, f7⟩ := validateOptions_none_facts hval
    rcases hbad with h | h | h | h | h | ⟨x, hx, hx0⟩ | ⟨x, hx, hx0⟩
    · exact absurd f1 (not_le.mpr h)
    · exact h f2
    · exact absurd f3 (not_lt.mpr h)
    · exact absurd f4 (not_lt.mpr h)
    · exact absurd f5 (not_lt.mpr h)
    · exact absurd (f6 x hx) (not_lt.mpr hx0)
    · exact absurd (f7 x hx) (not_lt.mpr hx0)
  · exact ⟨fault, by unfold retry; rw [hval]⟩

/-- C6 (witness): `retries = -1` is rejected synchronously with a
configuration error and zero invocations. -/
theorem c6_witness :
    ∃ fault, retry (ε := Unit) (α := Unit)
        ⟨fun _ => (0, Except.ok ()), none, fun _ => 0, none, none⟩
        ⟨-1, 1000, 30000, 2, true, none, none⟩ =
      ⟨Except.error (RetryError.configError fault), ⟨0, [], 0, 0⟩, 0⟩ :=
  c6_invalid_config _ _ (Or.inl (by norm_num))

/-- C7: a failed attempt with retries remaining whose error the configured
`shouldRetry` predicate (`retryIf`) rejects terminates the invocation
immediately with exactly that error: the iteration settles the whole call
(`StepOut.done`, so no further attempt runs), no delay is performed
(`sleeps = 0`), and the `onRetry` observer is not invoked for that failure
(`onRetryCalls = 0`). -/
theorem c7_shouldRetry_false (env : RetryEnv ε α) (o : RetryOptions)
    (rn attempt : Nat) (now t1 d : ℚ) (e : RetryError ε)
    (p : RetryError ε → RetryContext → ℚ × Except (RetryError ε) Bool)
    (h1 : totalExpired o.totalTimeout now = false)
    (h2 : aborted env.abortAt now = false)
    (hAE : attemptExec env o attempt now = (t1, Except.error e))
    (he : isAbortError e = false)
    (hleft : rn + 1 - attempt ≠ 0)
    (hp : env.retryIf = some p)
    (hfalse : p e ⟨attempt, rn + 1 - attempt, t1,
        calculateDelay attempt o.minTimeout o.maxTimeout o.factor o.jitter
          (env.rand attempt)⟩ = (d, Except.ok false)) :
    retryStep env o rn attempt now =
      StepOut.done (Except.error e) ⟨1, [e], 0, 0⟩ (t1 + d) := by
  unfold retryStep
  rw [h1, h2]
  simp only [Bool.false_eq_true, if_false]
  rw [hAE]
  dsimp only
  rw [he]
  simp only [Bool.false_eq_true, if_false, if_neg hleft]
  rw [hp]
  dsimp only
  rw [hfalse]
  simp

/-- C7 (witness): a concrete rejected failure — `retries = 5`, first attempt
fails instantly, the predicate answers `false` — settles immediately with
the operation's own error, no delay and no `onRetry`. -/
theorem c7_witness :
    retryStep (ε := Unit) (α := Unit)
        ⟨fun _ => (0, Except.error (RetryError.user ())), none, fun _ => 0,
          some fun _ _ => (0, Except.ok false), none⟩
        ⟨5, 10, 30000, 2, false, none, none⟩ 5 1 0 =
      StepOut.done (Except.error (RetryError.user ()))
        ⟨1, [RetryError.user ()], 0, 0⟩ (0 + 0) := by
  exact c7_shouldRetry_false _ _ 5 1 0 0 0 (RetryError.user ()) _
    rfl rfl (by norm_num [attemptExec]) rfl (by norm_num) rfl rfl

/-- C10: a `shouldRetry` predicate (`retryIf`) or `onRetry` observer that
itself throws when invoked after a failed attempt terminates the invocation
immediately, propagating the callback's own error in place of the
operation's error: the iteration settles the whole call (no further attempt
or delay), and the callback's failure is never subjected to retry
classification — for a throwing predicate `onRetry` does not run either. -/
theorem c10_callback_throw (env : RetryEnv ε α) (o : RetryOptions)
    (rn attempt : Nat) (now t1 d : ℚ) (e ce : RetryError ε)
    (h1 : totalExpired o.totalTimeout now = false)
    (h2 : aborted env.abortAt now = false)
    (hAE : attemptExec env o attempt now = (t1, Except.error e))
    (he : isAbortError e = false)
    (hleft : rn + 1 - attempt ≠ 0) :
    (∀ p, env.retryIf = some p →
      p e ⟨attempt, rn + 1 - attempt, t1,
          calculateDelay attempt o.minTimeout o.maxTimeout o.factor o.jitter
            (env.rand attempt)⟩ = (d, Except.error ce) →
      retryStep env o rn attempt now =
        StepOut.done (Except.error ce) ⟨1, [e], 0, 0⟩ (t1 + d)) ∧
    (∀ cb, env.retryIf = none → env.onRetry = some cb →
      cb e ⟨attempt, rn + 1 - attempt, t1,
          calculateDelay attempt o.minTimeout o.maxTimeout o.factor o.jitter
            (env.rand attempt)⟩ = (d, Except.error ce) →
      retryStep env o rn attempt now =
        StepOut.done (Except.error ce) ⟨1, [], 1, 0⟩ (t1 + d)) := by
  constructor
  · intro p hp hthrow
    unfold retryStep
    rw [h1, h2]
    simp only [Bool.false_eq_true, if_false]
    rw [hAE]
    dsimp only
    rw [he]
    simp only [Bool.false_eq_true, if_false, if_neg hleft]
    rw [hp]
    dsimp only
    rw [hthrow]
  · intro cb hrifn honr hthrow
    unfold retryStep
    rw [h1, h2]
    simp only [Bool.false_eq_true, if_false]
    rw [hAE]
    dsimp only
    rw [he]
    simp only [Bool.false_eq_true, if_false, if_neg hleft]
    rw [hrifn]
    dsimp only
    unfold afterPred
    rw [honr]
    dsimp only
    rw [hthrow]

/-- C10 (witness): a throwing predicate and a throwing observer, each on a
first failed attempt with retries remaining, settle the call with the
callback's error. -/
theorem c10_witness :
    retryStep (ε := Unit) (α := Unit)
        ⟨fun _ => (0, Except.error (RetryError.user ())), none, fun _ => 0,
          some fun _ _ => (0, Except.error RetryError.timeoutAttempt), none⟩
        ⟨5, 10, 30000, 2, false, none, none⟩ 5 1 0 =
      StepOut.done (Except.error RetryError.timeoutAttempt)
        ⟨1, [RetryError.user ()], 0, 0⟩ (0 + 0) ∧
    retryStep (ε := Unit) (α := Unit)
        ⟨fun _ => (0, Except.error (RetryError.user ())), none, fun _ => 0,
          none, some fun _ _ => (0, Except.error RetryError.timeoutAttempt)⟩
        ⟨5, 10, 30000, 2, false, none, none⟩ 5 1 0 =
      StepOut.done (Except.error RetryError.timeoutAttempt)
        ⟨1, [], 1, 0⟩ (0 + 0) := by
  constructor
  · exact (c10_callback_throw (ε := Unit) (α := Unit)
      ⟨fun _ => (0, Except.error (RetryError.user ())), none, fun _ => 0,
        some fun _ _ => (0, Except.error RetryError.timeoutAttempt), none⟩
      ⟨5, 10, 30000, 2, false, none, none⟩ 5 1 0 0 0 (RetryError.user ())
      RetryError.timeoutAttempt rfl rfl (by norm_num [attemptExec]) rfl
      (by norm_num)).1 _ rfl rfl
  · exact (c10_callback_throw (ε := Unit) (α := Unit)
      ⟨fun _ => (0, Except.error (RetryError.user ())), none, fun _ => 0,
        none, some fun _ _ => (0, Except.error RetryError.timeoutAttempt)⟩
      ⟨5, 10, 30000, 2, false, none, none⟩ 5 1 0 0 0 (RetryError.user ())
      RetryError.timeoutAttempt rfl rfl (by norm_num [attemptExec]) rfl
      (by norm_num)).2 _ rfl rfl rfl

/-- C2: an observed cancellation strictly overrides everything else.
(1) A token already signaled at call start settles the call with
`AbortError` at time 0 with zero invocations (at that point a configured —
hence positive — total timeout cannot yet be exhausted, so abort is the
first classification).  (2) In no run is an `AbortError` ever passed to the
`shouldRetry` predicate.  (3) A loop head that observes the signal (inside
the whole-operation budget) settles with `AbortError` before invoking the
operation.  (4) An attempt whose execution ends in `AbortError` (the
`withTimeout` race lost to the signal, or the operation threw the
library's `AbortError`) settles the whole call immediately: no `retryIf`,
no `onRetry`, no delay.  (5) The signal firing during the inter-attempt
delay rejects the delay and settles the call with `AbortError`. -/
theorem c2_abort_overrides (env : RetryEnv ε α) (o : RetryOptions) :
    (validateOptions o = none → aborted env.abortAt 0 = true →
      retry env o = ⟨Except.error RetryError.abortError, ⟨0, [], 0, 0⟩, 0⟩) ∧
      RetryError.abortError ∉ (retry env o).stats.retryIfErrs ∧
      (∀ rn attempt now, totalExpired o.totalTimeout now = false →
        aborted env.abortAt now = true →
        retryStep env o rn attempt now =
          StepOut.done (Except.error RetryError.abortError) ⟨0, [], 0, 0⟩ now) ∧
      (∀ rn attempt now t1, totalExpired o.totalTimeout now = false →
        aborted env.abortAt now = false →
        attemptExec env o attempt now =
          (t1, Except.error RetryError.abortError) →
        retryStep env o rn attempt now =
          StepOut.done (Except.error RetryError.abortError) ⟨1, [], 0, 0⟩ t1) ∧
      (∀ (e : RetryError ε) nd now t (stats : RunStats ε),
        totalWouldExceed o.totalTimeout now nd = false →
        sleep now nd env.abortAt = (t, true) →
        afterCallbacks env o e nd now stats =
          StepOut.done (Except.error RetryError.abortError) stats t) := by
  refine ⟨?_, ?_, ?_, ?_, ?_⟩
  · intro hv habt
    unfold retry
    rw [hv]
    dsimp only
    rw [habt]
    simp
  · intro hmem
    unfold retry at hmem
    rcases hval : validateOptions o with _ | fault <;> rw [hval] at hmem <;>
      dsimp only at hmem
    · split at hmem
      · simp at hmem
      · have := ((retryGo_stats env o (retriesNat o) (retriesNat o + 1) 1 0
          none).2 _ hmem).1
        simp [isAbortError] at this
    · simp at hmem
  · intro rn attempt now h1 habt
    unfold retryStep
    rw [h1, habt]
    simp
  · intro rn attempt now t1 h1 h2 hAE
    unfold retryStep
    rw [h1, h2]
    simp only [Bool.false_eq_true, if_false]
    rw [hAE]
    dsimp only
    rw [show isAbortError (RetryError.abortError : RetryError ε) = true from rfl]
    simp
  · intro e nd now t stats hwx hsl
    unfold afterCallbacks
    rw [hwx]
    simp only [Bool.false_eq_true, if_false]
    rw [hsl]

/-- C2 (witness): a pre-signaled token gives `AbortError` with zero
invocations under the default options, and an attempt that itself settles
with `AbortError` at time 0 terminates the call at once with no callback
activity. -/
theorem c2_witness :
    retry (ε := Unit) (α := Unit)
        ⟨fun _ => (0, Except.ok ()), some 0, fun _ => 0, none, none⟩
        ⟨3, 1000, 30000, 2, true, none, none⟩ =
      ⟨Except.error RetryError.abortError, ⟨0, [], 0, 0⟩, 0⟩ ∧
    retryStep (ε := Unit) (α := Unit)
        ⟨fun _ => (0, Except.error RetryError.abortError), none, fun _ => 0,
          some fun _ _ => (0, Except.ok true),
          some fun _ _ => (0, Except.ok ())⟩
        ⟨3, 1000, 30000, 2, true, none, none⟩ 3 1 0 =
      StepOut.done (Except.error RetryError.abortError) ⟨1, [], 0, 0⟩ 0 := by
  constructor
  · exact (c2_abort_overrides (ε := Unit) (α := Unit)
      ⟨fun _ => (0, Except.ok ()), some 0, fun _ => 0, none, none⟩
      ⟨3, 1000, 30000, 2, true, none, none⟩).1 (by decide) (by decide)
  · exact (c2_abort_overrides (ε := Unit) (α := Unit)
      ⟨fun _ => (0, Except.error RetryError.abortError), none, fun _ => 0,
        some fun _ _ => (0, Except.ok true),
        some fun _ _ => (0, Except.ok ())⟩
      ⟨3, 1000, 30000, 2, true, none, none⟩).2.2.2.1 3 1 0 0 rfl rfl
      (by norm_num [attemptExec])

/-- A signal observed as aborted is a configured signal. -/
theorem aborted_true_exists {a : Option ℚ} {now : ℚ}
    (h : aborted a now = true) : ∃ x, a = some x := by
  cases a with
  | none => simp [aborted] at h
  | some x => exact ⟨x, rfl⟩

/-- Where a failed attempt execution's error can come from: the attempt
timeout, the operation itself, or the abort race (the latter only with a
configured signal). -/
theorem attemptExec_error_shape {env : RetryEnv ε α} {o : RetryOptions}
    {attempt : Nat} {now t1 : ℚ} {x : RetryError ε}
    (h : attemptExec env o attempt now = (t1, Except.error x)) :
    x = RetryError.timeoutAttempt ∨ (env.op attempt).2 = Except.error x ∨
      (x = RetryError.abortError ∧ ∃ a, env.abortAt = some a) := by
  unfold attemptExec at h
  rcases hat : o.attemptTimeout with _ | tmo <;> rw [hat] at h <;> dsimp only at h
  · rw [Prod.mk.injEq] at h
    exact Or.inr (Or.inl h.2)
  · unfold withTimeout at h
    split at h
    next habt =>
      simp only [Prod.mk.injEq, Except.error.injEq] at h
      exact Or.inr (Or.inr ⟨h.2.symm, aborted_true_exists habt⟩)
    next habt =>
      dsimp only at h
      rcases hab : env.abortAt with _ | a <;> rw [hab] at h <;> dsimp only at h
      · split at h <;> simp only [Prod.mk.injEq, Except.error.injEq] at h
        · exact Or.inr (Or.inl h.2)
        · exact Or.inl h.2.symm
      · split at h
        all_goals try split at h
        all_goals simp only [Prod.mk.injEq, Except.error.injEq] at h
        all_goals rcases h with ⟨-, h⟩
        all_goals first
          | exact Or.inl h.symm
          | exact Or.inr (Or.inl h)
          | exact Or.inr (Or.inr ⟨h.symm, a, rfl⟩)

/-- A loop head observing the exhausted whole-operation budget settles with
the total-timeout error before invoking the operation. -/
theorem retryStep_total_expired (env : RetryEnv ε α) (o : RetryOptions)
    (rn attempt : Nat) (now : ℚ)
    (h : totalExpired o.totalTimeout now = true) :
    retryStep env o rn attempt now =
      StepOut.done (Except.error RetryError.timeoutTotalExceeded)
        ⟨0, [], 0, 0⟩ now := by
  unfold retryStep
  rw [h]
  simp

/-- A loop head observing the signal inside the budget settles with
`AbortError` before invoking the operation. -/
theorem retryStep_abort_at_head (env : RetryEnv ε α) (o : RetryOptions)
    (rn attempt : Nat) (now : ℚ)
    (h1 : totalExpired o.totalTimeout now = false)
    (habt : aborted env.abortAt now = true) :
    retryStep env o rn attempt now =
      StepOut.done (Except.error RetryError.abortError) ⟨0, [], 0, 0⟩ now := by
  unfold retryStep
  rw [h1, habt]
  simp

/-- C4: the two total-timeout raises, exactly.  (a) The pre-attempt raise
happens iff, at the head of the iteration, the elapsed time has reached
`totalTimeout` — terminal with zero invocations, so no attempt and no delay
follow.  (b) The post-classification raise happens iff
`totalTimeout − elapsed < nextDelay` at the check after the callbacks — the
iteration's accounting is passed through unchanged, so no delay is
performed.  (c) A full iteration with a retryable failure, retries
remaining and no callbacks configured raises exactly the would-exceed error
when the budget cannot accommodate `nextDelay`.  (d) If the operation never
itself throws the two total-timeout errors, neither kind is ever passed to
the `shouldRetry` predicate. -/
theorem c4_total_timeout (env : RetryEnv ε α) (o : RetryOptions) :
    (∀ rn attempt now,
      (∃ t, retryStep env o rn attempt now =
          StepOut.done (Except.error RetryError.timeoutTotalExceeded)
            ⟨0, [], 0, 0⟩ t) ↔
        totalExpired o.totalTimeout now = true) ∧
      (∀ (e : RetryError ε) nd now (stats : RunStats ε),
        afterCallbacks env o e nd now stats =
            StepOut.done (Except.error RetryError.timeoutTotalWouldExceed)
              stats now ↔
          totalWouldExceed o.totalTimeout now nd = true) ∧
      (∀ rn attempt now t1 e, totalExpired o.totalTimeout now = false →
        aborted env.abortAt now = false →
        attemptExec env o attempt now = (t1, Except.error e) →
        isAbortError e = false → rn + 1 - attempt ≠ 0 →
        env.retryIf = none → env.onRetry = none →
        totalWouldExceed o.totalTimeout t1
            (calculateDelay attempt o.minTimeout o.maxTimeout o.factor
              o.jitter (env.rand attempt)) = true →
        retryStep env o rn attempt now =
          StepOut.done (Except.error RetryError.timeoutTotalWouldExceed)
            ⟨1, [], 0, 0⟩ t1) ∧
      ((∀ n, (env.op n).2 ≠ Except.error RetryError.timeoutTotalExceeded ∧
          (env.op n).2 ≠ Except.error RetryError.timeoutTotalWouldExceed) →
        RetryError.timeoutTotalExceeded ∉ (retry env o).stats.retryIfErrs ∧
          RetryError.timeoutTotalWouldExceed ∉
            (retry env o).stats.retryIfErrs) := by
  refine ⟨?_, ?_, ?_, ?_⟩
  · intro rn attempt now
    constructor
    · rintro ⟨t, ht⟩
      by_cases hexp : totalExpired o.totalTimeout now = true
      · exact hexp
      · exfalso
        have hexp' : totalExpired o.totalTimeout now = false :=
          Bool.eq_false_iff.mpr hexp
        cases habt : aborted env.abortAt now with
        | true =>
            rw [retryStep_abort_at_head env o rn attempt now hexp' habt] at ht
            simp at ht
        | false =>
            have hi := retryStep_invoked env o rn attempt now hexp' habt
            rw [ht] at hi
            simp [StepOut.stats] at hi
    · intro h
      exact ⟨now, retryStep_total_expired env o rn attempt now h⟩
  · intro e nd now stats
    constructor
    · intro h
      by_cases hwx : totalWouldExceed o.totalTimeout now nd = true
      · exact hwx
      · exfalso
        have hwx' : totalWouldExceed o.totalTimeout now nd = false :=
          Bool.eq_false_iff.mpr hwx
        unfold afterCallbacks at h
        rw [hwx'] at h
        simp only [Bool.false_eq_true, if_false] at h
        rcases hsl : sleep now nd env.abortAt with ⟨t, b⟩
        rw [hsl] at h
        cases b <;> simp at h
    · intro h
      unfold afterCallbacks
      rw [h]
      simp
  · intro rn attempt now t1 e h1 h2 hAE he hleft hrifn honrn hwx
    unfold retryStep
    rw [h1, h2]
    simp only [Bool.false_eq_true, if_false]
    rw [hAE]
    dsimp only
    rw [he]
    simp only [Bool.false_eq_true, if_false, if_neg hleft]
    rw [hrifn]
    dsimp only
    unfold afterPred
    rw [honrn]
    dsimp only
    unfold afterCallbacks
    rw [hwx]
    simp
  · intro hop
    constructor <;> intro hmem <;> unfold retry at hmem <;>
      rcases hval : validateOptions o with _ | fault <;> rw [hval] at hmem <;>
      dsimp only at hmem
    · split at hmem
      · simp at hmem
      · obtain ⟨-, a, t0, t1, hsh⟩ := (retryGo_stats env o (retriesNat o)
          (retriesNat o + 1) 1 0 none).2 _ hmem
        rcases attemptExec_error_shape hsh with h | h | ⟨h, -⟩
        · exact absurd h (by simp)
        · exact absurd h (hop a).1
        · exact absurd h (by simp)
    · simp at hmem
    · split at hmem
      · simp at hmem
      · obtain ⟨-, a, t0, t1, hsh⟩ := (retryGo_stats env o (retriesNat o)
          (retriesNat o + 1) 1 0 none).2 _ hmem
        rcases attemptExec_error_shape hsh with h | h | ⟨h, -⟩
        · exact absurd h (by simp)
        · exact absurd h (hop a).2
        · exact absurd h (by simp)
    · simp at hmem

/-- C4 (witness): at a loop head past a 100ms total budget the step raises
the total-timeout error without invoking the operation; and a failing
instant attempt whose 50ms backoff delay cannot fit in the remaining budget
raises the would-exceed error with no delay performed. -/
theorem c4_witness :
    (∃ t, retryStep (ε := Unit) (α := Unit)
        ⟨fun _ => (0, Except.error (RetryError.user ())), none, fun _ => 0,
          none, none⟩
        ⟨10, 50, 30000, 2, false, none, some 100⟩ 10 3 150 =
      StepOut.done (Except.error RetryError.timeoutTotalExceeded)
        ⟨0, [], 0, 0⟩ t) ∧
    retryStep (ε := Unit) (α := Unit)
        ⟨fun _ => (0, Except.error (RetryError.user ())), none, fun _ => 0,
          none, none⟩
        ⟨10, 50, 30000, 2, false, none, some 100⟩ 10 1 90 =
      StepOut.done (Except.error RetryError.timeoutTotalWouldExceed)
        ⟨1, [], 0, 0⟩ (90 + 0) := by
  constructor
  · refine ((c4_total_timeout (ε := Unit) (α := Unit)
      ⟨fun _ => (0, Except.error (RetryError.user ())), none, fun _ => 0,
        none, none⟩
      ⟨10, 50, 30000, 2, false, none, some 100⟩).1 10 3 150).mpr ?_
    norm_num [totalExpired]
  · refine (c4_total_timeout (ε := Unit) (α := Unit)
      ⟨fun _ => (0, Except.error (RetryError.user ())), none, fun _ => 0,
        none, none⟩
      ⟨10, 50, 30000, 2, false, none, some 100⟩).2.2.1 10 1 90 (90 + 0)
      (RetryError.user ()) ?_ rfl ?_ rfl ?_ rfl rfl ?_
    · norm_num [totalExpired]
    · norm_num [attemptExec]
    · norm_num
    · norm_num [totalWouldExceed, calculateDelay, jsRound, Int.floor_eq_iff]

/-- With a per-attempt timeout, no signal, and an operation slower than the
timeout, the `withTimeout` race is lost to the timeout timer: the attempt
fails with the attempt-timeout error at `now + timeout`. -/
theorem attemptExec_timeout (env : RetryEnv ε α) (o : RetryOptions)
    (attempt : Nat) (now a : ℚ) (hat : o.attemptTimeout = some a)
    (hab : env.abortAt = none) (hslow : a < (env.op attempt).1) :
    attemptExec env o attempt now =
      (now + a, Except.error RetryError.timeoutAttempt) := by
  unfold attemptExec withTimeout
  rw [hat, hab]
  dsimp only [aborted]
  rw [if_neg (not_le.mpr hslow)]
  simp

/-- Under a per-attempt timeout that this attempt overruns (no signal, no
total budget, no callbacks), a final iteration surfaces the attempt-timeout
error and a non-final one schedules a retry of it like any failure. -/
theorem retryStep_all_timeout (env : RetryEnv ε α) (o : RetryOptions)
    (rn attempt : Nat) (now a : ℚ) (hat : o.attemptTimeout = some a)
    (hab : env.abortAt = none) (htt : o.totalTimeout = none)
    (hrif : env.retryIf = none) (honr : env.onRetry = none)
    (hslow : a < (env.op attempt).1) :
    (rn + 1 - attempt = 0 →
      retryStep env o rn attempt now =
        StepOut.done (Except.error RetryError.timeoutAttempt)
          ⟨1, [], 0, 0⟩ (now + a)) ∧
    (rn + 1 - attempt ≠ 0 →
      retryStep env o rn attempt now =
        StepOut.next RetryError.timeoutAttempt ⟨1, [], 0, 1⟩
          (now + a + ((calculateDelay attempt o.minTimeout o.maxTimeout
            o.factor o.jitter (env.rand attempt) : ℤ) : ℚ))) := by
  have h1 : totalExpired o.totalTimeout now = false := by rw [htt]; rfl
  have h2 : aborted env.abortAt now = false := by rw [hab]; rfl
  have hAE := attemptExec_timeout env o attempt now a hat hab hslow
  constructor
  · intro hleft
    unfold retryStep
    rw [h1, h2]
    simp only [Bool.false_eq_true, if_false]
    rw [hAE]
    dsimp only [isAbortError]
    simp only [Bool.false_eq_true, if_false, if_pos hleft]
  · intro hleft
    unfold retryStep
    rw [h1, h2]
    simp only [Bool.false_eq_true, if_false]
    rw [hAE]
    dsimp only [isAbortError]
    simp only [Bool.false_eq_true, if_false, if_neg hleft]
    rw [hrif]
    dsimp only
    unfold afterPred
    rw [honr]
    dsimp only
    unfold afterCallbacks
    rw [show totalWouldExceed o.totalTimeout (now + a)
      (calculateDelay attempt o.minTimeout o.maxTimeout o.factor o.jitter
        (env.rand attempt)) = false from by rw [htt]; rfl]
    simp only [Bool.false_eq_true, if_false]
    unfold sleep
    rw [hab]
    dsimp only [aborted]
    simp

/-- Every attempt overrunning the per-attempt timeout (no signal, no total
budget, no callbacks): each of the `fuel` remaining iterations times out
and the surfaced terminal error is the attempt-timeout kind. -/
theorem retryGo_all_timeout (env : RetryEnv ε α) (o : RetryOptions) (rn : Nat)
    (a : ℚ) (hat : o.attemptTimeout = some a) (hab : env.abortAt = none)
    (htt : o.totalTimeout = none) (hrif : env.retryIf = none)
    (honr : env.onRetry = none) (hslow : ∀ n, a < (env.op n).1)
    (fuel : Nat) :
    ∀ (attempt : Nat) (now : ℚ) (lastErr : Option (RetryError ε)),
      fuel ≠ 0 → attempt + fuel = rn + 2 →
      (retryGo env o rn fuel attempt now lastErr).result =
          Except.error RetryError.timeoutAttempt ∧
        (retryGo env o rn fuel attempt now lastErr).stats.invocations = fuel := by
  induction fuel with
  | zero => intro _ _ _ h; exact absurd rfl h
  | succ f ih =>
      intro attempt now lastErr _ hsum
      rcases Nat.eq_zero_or_pos f with rfl | hf
      · have hleft : rn + 1 - attempt = 0 := by omega
        have hstep := (retryStep_all_timeout env o rn attempt now a hat hab htt
          hrif honr (hslow attempt)).1 hleft
        simp [retryGo, hstep]
      · have hleft : rn + 1 - attempt ≠ 0 := by omega
        have hstep := (retryStep_all_timeout env o rn attempt now a hat hab htt
          hrif honr (hslow attempt)).2 hleft
        simp only [retryGo, hstep]
        obtain ⟨r1, r2⟩ := ih (attempt + 1)
          (now + a + ((calculateDelay attempt o.minTimeout o.maxTimeout
            o.factor o.jitter (env.rand attempt) : ℤ) : ℚ))
          (some RetryError.timeoutAttempt) (by omega) (by omega)
        refine ⟨r1, ?_⟩
        show 1 + (retryGo env o rn f (attempt + 1) _
          (some RetryError.timeoutAttempt)).stats.invocations = f + 1
        omega

/-- C5: with `perAttemptTimeout` configured and every attempt slower than
it (no signal, no total budget, no callbacks), each attempt fails with the
attempt-timeout kind and is retried under the normal rules — a non-final
timed-out attempt schedules a retry, counting as one failed attempt — and
when all `retries + 1` attempts time out this way the terminal error
surfaced is the `TimeoutError` attempt-timeout kind, not a generic
operation error. -/
theorem c5_attempt_timeout (env : RetryEnv ε α) (o : RetryOptions) (a : ℚ)
    (hv : validateOptions o = none) (hat : o.attemptTimeout = some a)
    (hslow : ∀ n, a < (env.op n).1) (hab : env.abortAt = none)
    (htt : o.totalTimeout = none) (hrif : env.retryIf = none)
    (honr : env.onRetry = none) :
    (retry env o).result = Except.error RetryError.timeoutAttempt ∧
      (retry env o).stats.invocations = retriesNat o + 1 ∧
      (∀ rn attempt now, rn + 1 - attempt ≠ 0 →
        retryStep env o rn attempt now =
          StepOut.next RetryError.timeoutAttempt ⟨1, [], 0, 1⟩
            (now + a + ((calculateDelay attempt o.minTimeout o.maxTimeout
              o.factor o.jitter (env.rand attempt) : ℤ) : ℚ))) := by
  have hrun : (retry env o) =
      retryGo env o (retriesNat o) (retriesNat o + 1) 1 0 none := by
    unfold retry
    rw [hv]
    dsimp only
    rw [show aborted env.abortAt 0 = false from by rw [hab]; rfl]
    simp
  obtain ⟨r1, r2⟩ := retryGo_all_timeout env o (retriesNat o) a hat hab htt
    hrif honr hslow (retriesNat o + 1) 1 0 none (by omega) (by omega)
  exact ⟨hrun ▸ r1, hrun ▸ r2, fun rn attempt now hleft =>
    (retryStep_all_timeout env o rn attempt now a hat hab htt hrif honr
      (hslow attempt)).2 hleft⟩

/-- C5 (witness): `retries = 2`, a 100ms per-attempt timeout, an operation
that would succeed after 200ms: all three attempts time out and the
terminal error is the attempt-timeout kind. -/
theorem c5_witness :
    (retry (ε := Unit) (α := Unit)
        ⟨fun _ => (200, Except.ok ()), none, fun _ => 0, none, none⟩
        ⟨2, 1, 1000, 2, false, some 100, none⟩).result =
      Except.error RetryError.timeoutAttempt ∧
    (retry (ε := Unit) (α := Unit)
        ⟨fun _ => (200, Except.ok ()), none, fun _ => 0, none, none⟩
        ⟨2, 1, 1000, 2, false, some 100, none⟩).stats.invocations =
      retriesNat ⟨2, 1, 1000, 2, false, some 100, none⟩ + 1 := by
  have h := c5_attempt_timeout (ε := Unit) (α := Unit)
    ⟨fun _ => (200, Except.ok ()), none, fun _ => 0, none, none⟩
    ⟨2, 1, 1000, 2, false, some 100, none⟩ 100 (by decide) rfl
    (fun n => by norm_num) rfl rfl rfl rfl
  exact ⟨h.1, h.2.1⟩

/-- The `instanceof AbortError` test fails exactly off the `abortError`
constructor. -/
theorem isAbortError_eq_false {x : RetryError ε} :
    isAbortError x = false ↔ x ≠ RetryError.abortError := by
  cases x <;> simp [isAbortError]

/-- With no signal configured and an operation that never throws the
library's `AbortError`, a failed attempt execution is never classified as
an abort. -/
theorem attemptExec_error_not_abort {env : RetryEnv ε α} {o : RetryOptions}
    {attempt : Nat} {now t1 : ℚ} {x : RetryError ε}
    (hab : env.abortAt = none)
    (hop : (env.op attempt).2 ≠ Except.error RetryError.abortError)
    (h : attemptExec env o attempt now = (t1, Except.error x)) :
    isAbortError x = false := by
  rw [isAbortError_eq_false]
  rintro rfl
  rcases attemptExec_error_shape h with h' | h' | ⟨-, a, ha⟩
  · exact absurd h' (by simp)
  · exact hop h'
  · rw [hab] at ha
    exact absurd ha (by simp)

/-- A successful attempt settles the call with its value. -/
theorem retryStep_success (env : RetryEnv ε α) (o : RetryOptions)
    (rn attempt : Nat) (now t1 : ℚ) (v : α)
    (h1 : totalExpired o.totalTimeout now = false)
    (h2 : aborted env.abortAt now = false)
    (hAE : attemptExec env o attempt now = (t1, Except.ok v)) :
    retryStep env o rn attempt now =
      StepOut.done (Except.ok v) ⟨1, [], 0, 0⟩ t1 := by
  unfold retryStep
  rw [h1, h2]
  simp only [Bool.false_eq_true, if_false]
  rw [hAE]

/-- A failing final attempt surfaces its own error with no callback
activity and no delay. -/
theorem retryStep_exhausted (env : RetryEnv ε α) (o : RetryOptions)
    (rn attempt : Nat) (now t1 : ℚ) (e : RetryError ε)
    (h1 : totalExpired o.totalTimeout now = false)
    (h2 : aborted env.abortAt now = false)
    (hAE : attemptExec env o attempt now = (t1, Except.error e))
    (he : isAbortError e = false)
    (hleft : rn + 1 - attempt = 0) :
    retryStep env o rn attempt now =
      StepOut.done (Except.error e) ⟨1, [], 0, 0⟩ t1 := by
  unfold retryStep
  rw [h1, h2]
  simp only [Bool.false_eq_true, if_false]
  rw [hAE]
  dsimp only
  rw [he]
  simp only [Bool.false_eq_true, if_false, if_pos hleft]

/-- A failing non-final attempt under no predicate, a total-success
`onRetry` observer, no signal and no total budget: the iteration runs the
observer once, sleeps, and schedules the retry. -/
theorem retryStep_onRetry_next (env : RetryEnv ε α) (o : RetryOptions)
    (rn attempt : Nat) (now t1 : ℚ) (e : RetryError ε)
    (cb : RetryError ε → RetryContext → ℚ × Except (RetryError ε) Unit)
    (hab : env.abortAt = none) (htt : o.totalTimeout = none)
    (hrif : env.retryIf = none) (honr : env.onRetry = some cb)
    (hcb : ∀ x c, (cb x c).2 = Except.ok ())
    (hAE : attemptExec env o attempt now = (t1, Except.error e))
    (he : isAbortError e = false)
    (hleft : rn + 1 - attempt ≠ 0) :
    ∃ t, retryStep env o rn attempt now =
      StepOut.next e ⟨1, [], 1, 1⟩ t := by
  have h1 : totalExpired o.totalTimeout now = false := by rw [htt]; rfl
  have h2 : aborted env.abortAt now = false := by rw [hab]; rfl
  unfold retryStep
  rw [h1, h2]
  simp only [Bool.false_eq_true, if_false]
  rw [hAE]
  dsimp only
  rw [he]
  simp only [Bool.false_eq_true, if_false, if_neg hleft]
  rw [hrif]
  dsimp only
  unfold afterPred
  rw [honr]
  dsimp only
  rcases hc : cb e ⟨attempt, rn + 1 - attempt, t1,
      calculateDelay attempt o.minTimeout o.maxTimeout o.factor o.jitter
        (env.rand attempt)⟩ with ⟨d, out⟩
  have hout := hcb e ⟨attempt, rn + 1 - attempt, t1,
    calculateDelay attempt o.minTimeout o.maxTimeout o.factor o.jitter
      (env.rand attempt)⟩
  rw [hc] at hout
  dsimp only at hout
  rw [hout]
  dsimp only
  unfold afterCallbacks
  rw [show totalWouldExceed o.totalTimeout (t1 + d)
    (calculateDelay attempt o.minTimeout o.maxTimeout o.factor o.jitter
      (env.rand attempt)) = false from by rw [htt]; rfl]
  simp only [Bool.false_eq_true, if_false]
  unfold sleep
  rw [hab]
  dsimp only [aborted]
  refine ⟨t1 + d + ((calculateDelay attempt o.minTimeout o.maxTimeout
    o.factor o.jitter (env.rand attempt) : ℤ) : ℚ), ?_⟩
  simp

/-- Accounting of a whole loop run with no predicate, a total-success
observer, no signal, no total budget, and an operation that never throws
`AbortError`: at least one invocation, `onRetry` runs exactly once per
invocation except the last, and a failing run exhausts all permitted
iterations. -/
theorem retryGo_onRetry_count (env : RetryEnv ε α) (o : RetryOptions)
    (rn : Nat) (cb : RetryError ε → RetryContext → ℚ × Except (RetryError ε) Unit)
    (hab : env.abortAt = none) (htt : o.totalTimeout = none)
    (hrif : env.retryIf = none) (honr : env.onRetry = some cb)
    (hcb : ∀ x c, (cb x c).2 = Except.ok ())
    (hop : ∀ n, (env.op n).2 ≠ Except.error RetryError.abortError)
    (fuel : Nat) :
    ∀ (attempt : Nat) (now : ℚ) (lastErr : Option (RetryError ε)),
      fuel ≠ 0 → attempt + fuel = rn + 2 →
      1 ≤ (retryGo env o rn fuel attempt now lastErr).stats.invocations ∧
        (retryGo env o rn fuel attempt now lastErr).stats.onRetryCalls =
          (retryGo env o rn fuel attempt now lastErr).stats.invocations - 1 ∧
        ((retryGo env o rn fuel attempt now lastErr).result.isOk = false →
          (retryGo env o rn fuel attempt now lastErr).stats.invocations = fuel) := by
  have h1 : ∀ now : ℚ, totalExpired o.totalTimeout now = false := by
    intro now; rw [htt]; rfl
  have h2 : ∀ now : ℚ, aborted env.abortAt now = false := by
    intro now; rw [hab]; rfl
  induction fuel with
  | zero => intro _ _ _ h; exact absurd rfl h
  | succ f ih =>
      intro attempt now lastErr _ hsum
      rcases hAE : attemptExec env o attempt now with ⟨t1, res⟩
      rcases res with e | v
      · have he : isAbortError e = false :=
          attemptExec_error_not_abort hab (hop attempt) hAE
        rcases Nat.eq_zero_or_pos f with rfl | hf
        · have hleft : rn + 1 - attempt = 0 := by omega
          have hstep := retryStep_exhausted env o rn attempt now t1 e
            (h1 now) (h2 now) hAE he hleft
          simp [retryGo, hstep, StepOut.stats]
        · have hleft : rn + 1 - attempt ≠ 0 := by omega
          obtain ⟨t, hstep⟩ := retryStep_onRetry_next env o rn attempt now t1 e
            cb hab htt hrif honr hcb hAE he hleft
          simp only [retryGo, hstep]
          obtain ⟨i1, i2, i3⟩ := ih (attempt + 1) t (some e) (by omega) (by omega)
          refine ⟨?_, ?_, ?_⟩
          · show 1 ≤ 1 + (retryGo env o rn f (attempt + 1) t
              (some e)).stats.invocations
            omega
          · show 1 + (retryGo env o rn f (attempt + 1) t
                (some e)).stats.onRetryCalls =
              1 + (retryGo env o rn f (attempt + 1) t
                (some e)).stats.invocations - 1
            omega
          · intro hfail
            show 1 + (retryGo env o rn f (attempt + 1) t
              (some e)).stats.invocations = f + 1
            have := i3 hfail
            omega
      · have hstep := retryStep_success env o rn attempt now t1 v
          (h1 now) (h2 now) hAE
        simp only [retryGo, hstep]
        refine ⟨by simp, by simp, ?_⟩
        intro hfail
        simp [Except.isOk, Except.toBool] at hfail

/-- C8 (counterexample): a failing run stopped by `retryIf = false` on the
first attempt: one failed attempt, `retries = 5`, yet the configured
`onRetry` observer runs zero times while `min(failedAttempts, maxRetries)
= min(1, 5) = 1`. -/
theorem c8_counterexample :
    (retry (ε := Unit) (α := Unit)
        ⟨fun _ => (0, Except.error (RetryError.user ())), none, fun _ => 0,
          some fun _ _ => (0, Except.ok false),
          some fun _ _ => (0, Except.ok ())⟩
        ⟨5, 10, 30000, 2, false, none, none⟩).result =
      Except.error (RetryError.user ()) ∧
    (retry (ε := Unit) (α := Unit)
        ⟨fun _ => (0, Except.error (RetryError.user ())), none, fun _ => 0,
          some fun _ _ => (0, Except.ok false),
          some fun _ _ => (0, Except.ok ())⟩
        ⟨5, 10, 30000, 2, false, none, none⟩).stats.invocations = 1 ∧
    retriesNat ⟨5, 10, 30000, 2, false, none, none⟩ = 5 ∧
    (retry (ε := Unit) (α := Unit)
        ⟨fun _ => (0, Except.error (RetryError.user ())), none, fun _ => 0,
          some fun _ _ => (0, Except.ok false),
          some fun _ _ => (0, Except.ok ())⟩
        ⟨5, 10, 30000, 2, false, none, none⟩).stats.onRetryCalls ≠
      min 1 5 := by
  have hrn : retriesNat ⟨5, 10, 30000, 2, false, none, none⟩ = 5 := by
    decide
  have hstep : retryStep (ε := Unit) (α := Unit)
      ⟨fun _ => (0, Except.error (RetryError.user ())), none, fun _ => 0,
        some fun _ _ => (0, Except.ok false),
        some fun _ _ => (0, Except.ok ())⟩
      ⟨5, 10, 30000, 2, false, none, none⟩ 5 1 0 =
      StepOut.done (Except.error (RetryError.user ()))
        ⟨1, [RetryError.user ()], 0, 0⟩ (0 + 0 + 0) := by
    unfold retryStep
    rw [show totalExpired
      (RetryOptions.totalTimeout ⟨5, 10, 30000, 2, false, none, none⟩) 0 =
        false from rfl]
    rw [show aborted (none : Option ℚ) 0 = false from rfl]
    simp only [Bool.false_eq_true, if_false]
    rw [show attemptExec (ε := Unit) (α := Unit)
      ⟨fun _ => (0, Except.error (RetryError.user ())), none, fun _ => 0,
        some fun _ _ => (0, Except.ok false),
        some fun _ _ => (0, Except.ok ())⟩
      ⟨5, 10, 30000, 2, false, none, none⟩ 1 0 =
        (0 + 0, Except.error (RetryError.user ())) from rfl]
    dsimp only [isAbortError]
    norm_num
  have hrun : retry (ε := Unit) (α := Unit)
      ⟨fun _ => (0, Except.error (RetryError.user ())), none, fun _ => 0,
        some fun _ _ => (0, Except.ok false),
        some fun _ _ => (0, Except.ok ())⟩
      ⟨5, 10, 30000, 2, false, none, none⟩ =
      ⟨Except.error (RetryError.user ()),
        ⟨1, [RetryError.user ()], 0, 0⟩, 0 + 0 + 0⟩ := by
    unfold retry
    rw [show validateOptions ⟨5, 10, 30000, 2, false, none, none⟩ = none
      from by decide]
    dsimp only
    rw [show aborted (none : Option ℚ) 0 = false from rfl]
    simp only [Bool.false_eq_true, if_false, hrn]
    rw [show (5 : Nat) + 1 = Nat.succ 5 from rfl]
    simp only [retryGo]
    rw [hstep]
  rw [hrun, hrn]
  refine ⟨rfl, rfl, rfl, by norm_num⟩

/-- C8 (amended): when the run is not cut short by an abort, a total
timeout, a `shouldRetry` rejection or a callback failure — no signal, no
total budget, no predicate, an observer that always completes, an operation
never throwing `AbortError` — the `onRetry` observer runs exactly
`min(failedAttempts, maxRetries)` times, where `failedAttempts` counts the
attempts that did not succeed: it is never invoked for the successful
attempt nor after the final non-retried failure.  (In general a failure
that is not scheduled for a retry — `shouldRetry` false, abort, total
timeout — does not trigger the observer, which the claimed formula
miscounts.) -/
theorem c8_onRetry_count (env : RetryEnv ε α) (o : RetryOptions)
    (cb : RetryError ε → RetryContext → ℚ × Except (RetryError ε) Unit)
    (hv : validateOptions o = none) (hab : env.abortAt = none)
    (htt : o.totalTimeout = none) (hrif : env.retryIf = none)
    (honr : env.onRetry = some cb)
    (hcb : ∀ x c, (cb x c).2 = Except.ok ())
    (hop : ∀ n, (env.op n).2 ≠ Except.error RetryError.abortError) :
    (retry env o).stats.onRetryCalls =
      min (if (retry env o).result.isOk then
            (retry env o).stats.invocations - 1
          else (retry env o).stats.invocations)
        (retriesNat o) := by
  have hrun : retry env o =
      retryGo env o (retriesNat o) (retriesNat o + 1) 1 0 none := by
    unfold retry
    rw [hv]
    dsimp only
    rw [show aborted env.abortAt 0 = false from by rw [hab]; rfl]
    simp
  obtain ⟨i1, i2, i3⟩ := retryGo_onRetry_count env o (retriesNat o) cb hab htt
    hrif honr hcb hop (retriesNat o + 1) 1 0 none (by omega) (by omega)
  have iup := (retryGo_stats env o (retriesNat o) (retriesNat o + 1) 1 0 none).1
  rw [hrun]
  cases hk : (retryGo env o (retriesNat o) (retriesNat o + 1) 1 0
      none).result.isOk with
  | true => rw [if_pos rfl]; omega
  | false =>
      have := i3 hk
      rw [if_neg (by simp)]
      omega

/-- C8 (witness): two failures then success under `retries = 5` with a
logging observer: the count matches `min(failedAttempts, maxRetries)`. -/
theorem c8_witness :
    (retry (ε := Unit) (α := Unit)
        ⟨fun n => (0, if n ≤ 2 then Except.error (RetryError.user ())
            else Except.ok ()),
          none, fun _ => 0, none, some fun _ _ => (0, Except.ok ())⟩
        ⟨5, 10, 30000, 2, false, none, none⟩).stats.onRetryCalls =
      min (if (retry (ε := Unit) (α := Unit)
            ⟨fun n => (0, if n ≤ 2 then Except.error (RetryError.user ())
                else Except.ok ()),
              none, fun _ => 0, none, some fun _ _ => (0, Except.ok ())⟩
            ⟨5, 10, 30000, 2, false, none, none⟩).result.isOk then
          (retry (ε := Unit) (α := Unit)
            ⟨fun n => (0, if n ≤ 2 then Except.error (RetryError.user ())
                else Except.ok ()),
              none, fun _ => 0, none, some fun _ _ => (0, Except.ok ())⟩
            ⟨5, 10, 30000, 2, false, none, none⟩).stats.invocations - 1
        else (retry (ε := Unit) (α := Unit)
            ⟨fun n => (0, if n ≤ 2 then Except.error (RetryError.user ())
                else Except.ok ()),
              none, fun _ => 0, none, some fun _ _ => (0, Except.ok ())⟩
            ⟨5, 10, 30000, 2, false, none, none⟩).stats.invocations)
        (retriesNat ⟨5, 10, 30000, 2, false, none, none⟩) := by
  exact c8_onRetry_count (ε := Unit) (α := Unit)
    ⟨fun n => (0, if n ≤ 2 then Except.error (RetryError.user ())
        else Except.ok ()),
      none, fun _ => 0, none, some fun _ _ => (0, Except.ok ())⟩
    ⟨5, 10, 30000, 2, false, none, none⟩ (fun _ _ => (0, Except.ok ()))
    (by decide) rfl rfl rfl rfl (fun x c => rfl)
    (fun n => by dsimp only; split <;> simp)

end NanoRetry
